import Mathlib

set_option autoImplicit false

/-!
Shallow embedding of the Blueprint-Framework connection manager
(`src/src/main.ts` superseded by the `ConnectionManager` class of the
unnamed module extending `Hooks`), its serializer
(`src/src/core/serialization.ts`), its deserializer
(`src/src/core/deseriallization.ts`) and the hook dispatch loop
(`Hooks.execHooks`).

Modelling conventions:
* `GUID` identifiers are embedded as `Nat`; `GUID.equals` is `Nat` equality
  (value semantics, as the spec requires of identifiers).  Fresh GUIDs
  (`new GUID()`) are produced from a `nextId` counter threaded through the
  manager state.
* A JavaScript `Map` is embedded as an insertion-ordered association list
  `List (Nat × α)`: `set` updates in place or appends, `delete` filters,
  iteration order is list order (JS `Map` preserves insertion order).
* A `TReferance` (`\x7b get, id \x7d`) dereferences to the node it was built
  from, so buckets store the node itself; object identity (JS `===`) on
  nodes is represented by equality of their self ids, which is how nodes
  are keyed throughout the registry.
* `node.isCompatible(other)` is embedded as a per-node boolean predicate
  applied to the destination node's self id (in any given registry state a
  registered node is determined by its id).
* Hook dispatch side effects are observed through an `emitted` event trace
  on the manager state; per-callback execution is modelled separately for
  the `Hooks` class.
* In the source, every registered node owns a reverse-adjacency bucket
  (created by `announce`); a missing bucket is read as the empty bucket.
-/

namespace Blueprint

/-- Lookup in an insertion-ordered association list (JS `Map.get`). -/
def mget {α : Type} : List (Nat × α) → Nat → Option α
  | [], _ => none
  | (k, v) :: rest, k' => if k = k' then some v else mget rest k'

/-- Insert-or-update (JS `Map.set`): updates in place when the key is
present, appends otherwise, preserving insertion order. -/
def mset {α : Type} : List (Nat × α) → Nat → α → List (Nat × α)
  | [], k, v => [(k, v)]
  | (k', v') :: rest, k, v =>
    if k' = k then (k', v) :: rest else (k', v') :: mset rest k v

/-- Key removal (JS `Map.delete`). -/
def mdel {α : Type} : List (Nat × α) → Nat → List (Nat × α)
  | [], _ => []
  | (k', v) :: rest, k =>
    if k' = k then mdel rest k else (k', v) :: mdel rest k

/-- Key membership (JS `Map.has`). -/
def mhas {α : Type} (m : List (Nat × α)) (k : Nat) : Bool :=
  (mget m k).isSome

/-- `ConnectionNode.TMode`: `'input' | 'output'`. -/
inductive Mode where
  | input
  | output
deriving DecidableEq, Repr

/-- `Geometric.TPoint`. -/
structure Point where
  x : Int
  y : Int
deriving DecidableEq, Repr

/-- `ConnectionNode.INode`: mode accessor, ids, compatibility predicate,
attribute bag (embedded opaquely as a string), current root position and
the optional parent-attributes accessor. -/
structure Node where
  selfId : Nat
  parentId : Nat
  groupId : Nat
  mode : Mode
  isCompatible : Nat → Bool
  attributes : String
  rootPosition : Point
  getParentAttributes : Option String

/-- Events observed from `execHooks` calls made by the manager. -/
inductive CMEvent where
  | startConnection (origin : Nat)
  | endConnection (origin : Nat) (target : Option Nat)
  | line (p q : Point)

/-- The `ConnectionManager` instance state: the four coupled maps, the
transient origin/target drag state, the GUID counter and the trace of
dispatched events. -/
structure CMState where
  nodeMap : List (Nat × Node)
  parentMap : List (Nat × List (Nat × Node))
  connectionMap : List (Nat × (Nat × Nat))
  connectionPointersMap : List (Nat × List (Nat × Nat))
  originNode : Option Node
  targetNode : Option Node
  nextId : Nat
  emitted : List CMEvent

/-- The reverse-adjacency bucket of a node (empty when absent). -/
def bucketOf (s : CMState) (id : Nat) : List (Nat × Nat) :=
  (mget s.connectionPointersMap id).getD []

/-- `getConnection(id)`. -/
def getConnection (s : CMState) (id : Nat) : Option (Nat × Nat) :=
  mget s.connectionMap id

/-- `getNode(id)` (the stored reference dereferences to the node). -/
def getNode (s : CMState) (id : Nat) : Option Node :=
  mget s.nodeMap id

/-- `getParent(id)`. -/
def getParent (s : CMState) (id : Nat) : Option (List (Nat × Node)) :=
  mget s.parentMap id

/-- `getOrigin()`. -/
def getOrigin (s : CMState) : Option Node := s.originNode

/-- `getTarget()`. -/
def getTarget (s : CMState) : Option Node := s.targetNode

/-- `testCompatibility(origin, destination)`: identity check, node
lookups, parent-distinctness, mode-distinctness, existing-connection check
on the origin's reverse-adjacency bucket, then the node-supplied
`isCompatible`. -/
def testCompatibility (s : CMState) (origin destination : Nat) : Bool :=
  if origin = destination then false
  else
    match getNode s origin, getNode s destination with
    | some originRef, some destinationRef =>
      if originRef.parentId = destinationRef.parentId then false
      else if originRef.mode = destinationRef.mode then false
      else if mhas (bucketOf s origin) destination then false
      else if originRef.isCompatible destinationRef.selfId = false then false
      else true
    | _, _ => false

/-- `addConnection(origin, destination)`: re-runs `testCompatibility`; on
success generates a fresh id, records it in both endpoints' buckets and
records the ordered pair in the connection map. -/
def addConnection (s : CMState) (origin destination : Nat) :
    Option Nat × CMState :=
  if testCompatibility s origin destination = false then (none, s)
  else
    let id := s.nextId
    let s1 := { s with
      connectionPointersMap :=
        mset s.connectionPointersMap origin
          (mset (bucketOf s origin) destination id) }
    let s2 := { s1 with
      connectionPointersMap :=
        mset s1.connectionPointersMap destination
          (mset (bucketOf s1 destination) origin id) }
    let s3 := { s2 with
      connectionMap := mset s2.connectionMap id (origin, destination),
      nextId := s.nextId + 1 }
    (some id, s3)

/-- `removeConnection(id)`: deletes from the connection map only (the
reverse-adjacency buckets are left untouched by the source). -/
def removeConnection (s : CMState) (id : Nat) : Bool × CMState :=
  match getConnection s id with
  | none => (false, s)
  | some _ => (true, { s with connectionMap := mdel s.connectionMap id })

/-- The cascade of `removeNode`:
`connections.forEach(connectionId => this.removeConnection(connectionId))`
over the entries of a reverse-adjacency bucket (values are connection
ids). -/
def removeConnections (s : CMState) (connections : List (Nat × Nat)) :
    CMState :=
  connections.foldl (fun acc p => (removeConnection acc p.2).2) s

/-- `removeNode(id)`: removes the node from its parent's bucket and the
node map, then removes every connection listed in the node's
reverse-adjacency bucket.  The bucket itself is not deleted by the
source. -/
def removeNode (s : CMState) (id : Nat) : Bool × CMState :=
  match getNode s id with
  | none => (false, s)
  | some ref =>
    let s1 :=
      match mget s.parentMap ref.parentId with
      | none => s
      | some parent =>
        { s with parentMap := mset s.parentMap ref.parentId (mdel parent ref.selfId) }
    let s2 := { s1 with nodeMap := mdel s1.nodeMap id }
    let connections := bucketOf s2 id
    (true, removeConnections s2 connections)

/-- `removeParent(id)`: removes every child via `removeNode`, then deletes
the bucket; returns `none` when the parent is unknown. -/
def removeParent (s : CMState) (id : Nat) : Option Unit × CMState :=
  match getParent s id with
  | none => (none, s)
  | some ref =>
    let s1 := ref.foldl (fun acc p => (removeNode acc p.2.selfId).2) s
    (some (), { s1 with parentMap := mdel s1.parentMap id })

/-- `insertParent` helper of `announce`. -/
def insertParent (s : CMState) (id : Nat) (child : Node) : CMState :=
  match mget s.parentMap id with
  | none =>
    { s with parentMap := mset s.parentMap id [(child.selfId, child)] }
  | some parent =>
    { s with parentMap := mset s.parentMap id (mset parent child.selfId child) }

/-- Registration part of `announce(node)`: node map entry, fresh empty
reverse-adjacency bucket, parent bucket entry.  The hook subscriptions it
installs are embedded as the transition functions below. -/
def announce (s : CMState) (node : Node) : CMState :=
  let s1 := { s with nodeMap := mset s.nodeMap node.selfId node }
  let s2 := { s1 with
    connectionPointersMap := mset s1.connectionPointersMap node.selfId [] }
  insertParent s2 node.parentId node

/-- The `mouseEnter` handler installed by `announce`: re-entering the
already-set target clears it, otherwise the node becomes the target. -/
def mouseEnter (s : CMState) (node : Node) : CMState :=
  match s.targetNode with
  | some t =>
    if t.selfId = node.selfId then { s with targetNode := none }
    else { s with targetNode := some node }
  | none => { s with targetNode := some node }

/-- The `dragStart` handler installed by `announce`: clears the target,
sets the node as origin and dispatches `startConnection`. -/
def dragStart (s : CMState) (node : Node) : CMState :=
  { s with
    targetNode := none,
    originNode := some node,
    emitted := s.emitted ++ [CMEvent.startConnection node.selfId] }

/-- The `dragEnd` handler installed by `announce`: dispatches
`endConnection` with (origin reference, target-or-none), attempts
`addConnection` when a target is set (with no target the destination id is
absent and no connection can be formed), then unconditionally clears both
origin and target. -/
def dragEnd (s : CMState) (node : Node) : CMState :=
  let target := getTarget s
  let s1 := { s with
    emitted := s.emitted ++
      [CMEvent.endConnection node.selfId (target.map Node.selfId)] }
  let s2 :=
    match target with
    | some t => (addConnection s1 node.selfId t.selfId).2
    | none => s1
  { s2 with originNode := none, targetNode := none }

/-- `Serialization.TSerializedNode`. -/
structure SNode where
  id : Nat
  parent : Nat
  group : Nat
  position : Point
  attributes : String
deriving DecidableEq, Repr

/-- `Serialization.TSerializedParent`. -/
structure SParent where
  id : Nat
  attributes : Option String
  children : List Nat
deriving DecidableEq, Repr

/-- `Serialization.TSerializedConnection`. -/
structure SConn where
  origin : Nat
  destination : Nat
deriving DecidableEq, Repr

/-- `Serialization.TSerializedObject`. -/
structure SObj where
  groups : List Nat
  parents : List SParent
  nodes : List SNode
  connections : List SConn
deriving DecidableEq, Repr

/-- The node/group gathering loop of `serialization.ts`: for each node map
entry, push the group id when unseen and push the serialized node. -/
def serializeNodes (nodeMap : List (Nat × Node)) : List Nat × List SNode :=
  nodeMap.foldl
    (fun acc p =>
      let node := p.2
      let groups :=
        if acc.1.contains node.groupId then acc.1 else acc.1 ++ [node.groupId]
      (groups, acc.2 ++
        [⟨node.selfId, node.parentId, node.groupId,
          node.rootPosition, node.attributes⟩]))
    ([], [])

/-- The parent gathering loop of `serialization.ts`: child ids in bucket
iteration order, attributes from the first child that supplies some. -/
def serializeParents (parentMap : List (Nat × List (Nat × Node))) :
    List SParent :=
  parentMap.foldl
    (fun acc p =>
      let folded := p.2.foldl
        (fun (a : Option String × List Nat) c =>
          let a1 := if a.1.isNone then c.2.getParentAttributes else a.1
          (a1, a.2 ++ [c.2.selfId]))
        (none, [])
      acc ++ [⟨p.1, folded.1, folded.2⟩])
    []

/-- `serialization.ts` default export: flattens the three maps into the
serialized document. -/
def serialize (connectionsMap : List (Nat × (Nat × Nat)))
    (nodeMap : List (Nat × Node))
    (parentMap : List (Nat × List (Nat × Node))) : SObj :=
  let gathered := serializeNodes nodeMap
  let parents := serializeParents parentMap
  let connections :=
    connectionsMap.foldl (fun acc p => acc ++ [⟨p.2.1, p.2.2⟩]) []
  ⟨gathered.1, parents, gathered.2, connections⟩

/-- A raw serialized node as found in parsed JSON: each identifier field
is either a valid identifier or malformed (`none`). -/
structure RawSNode where
  id : Option Nat
  parent : Option Nat
  group : Option Nat
  position : Point
  attributes : String

/-- A parsed serialized document.  The deserializer only reads the
`nodes` field of the document. -/
structure RawSObj where
  groups : List Nat
  parents : List SParent
  nodes : List RawSNode
  connections : List SConn

/-- Modelled from the spec: `core/guid.ts` is not under `src/`; per §4.1
`GUID.isValid(candidate)` is format validation that rejects malformed
strings during deserialization.  Raw identifiers are embedded as
`Option Nat`, `none` standing for a string that fails validation. -/
def guidIsValid (candidate : Option Nat) : Bool :=
  candidate.isSome

/-- The per-record validation of `deseriallization.ts`:
`GUID.isValid(node.id) && GUID.isValid(node.parent) && GUID.isValid(node.group)`
(the source skips the record when any of the three fails). -/
def validRecord (node : RawSNode) : Bool :=
  guidIsValid node.id && guidIsValid node.parent && guidIsValid node.group

/-- The node loop of `deseriallization.ts`: a record failing validation is
skipped (early `return` in the `forEach`), a valid record is rebuilt as a
`TSerializedNode`; the rebuilt records are never inserted into any map
(the insertion code of the source is commented out). -/
def processNodes : List RawSNode → List SNode
  | [] => []
  | node :: rest =>
    if validRecord node = false then processNodes rest
    else
      match node.id, node.parent, node.group with
      | some i, some p, some g =>
        ⟨i, p, g, node.position, node.attributes⟩ :: processNodes rest
      | _, _, _ => processNodes rest

/-- `Serialization.IDeserializedObject`. -/
structure DeserializedMaps where
  nodeMap : List (Nat × Node)
  parentMap : List (Nat × List (Nat × Node))
  connectionMap : List (Nat × (Nat × Nat))
  connectionPointersMap : List (Nat × List (Nat × Nat))

/-- `deseriallization.ts` default export.  Its argument is the outcome of
`JSON.parse` on the input string: `none` when parsing threw (the source
catches and returns `null`), otherwise the parsed document.  The node loop
runs for validation only; the returned maps are the freshly instantiated
empty maps, since every insertion in the source is commented out. -/
def deserialize (parsed : Option RawSObj)
    (_populateHook : SNode → SParent → Node) : Option DeserializedMaps :=
  match parsed with
  | none => none
  | some so =>
    let _validated := processNodes so.nodes
    some ⟨[], [], [], []⟩

/-- Re-parsing a document that `serialize` produced: every identifier was
written as a plain string of a live GUID, so every field re-validates. -/
def reparse (so : SObj) : RawSObj :=
  ⟨so.groups,
   so.parents,
   so.nodes.map (fun n =>
     ⟨some n.id, some n.parent, some n.group, n.position, n.attributes⟩),
   so.connections⟩

/-- A registered callback of one hook kind, summarized by what it does
when invoked: normal return or a thrown exception. -/
def HookCallback : Type := Except String Unit

/-- `Hooks.execHooks` over one hook-kind map (`map.forEach(f => f(args))`
in the source): callbacks run synchronously in registration order; a
thrown exception propagates out of `forEach`, ending the dispatch.  The
result records the ids of the callbacks actually invoked, in order, and
the exception if one was thrown. -/
def execHooks : List (Nat × HookCallback) → List Nat × Option String
  | [] => ([], none)
  | (id, cb) :: rest =>
    match cb with
    | Except.ok _ =>
      let tail := execHooks rest
      (id :: tail.1, tail.2)
    | Except.error e => ([id], some e)

/-- `Hooks.addHook`: a fresh GUID is generated and the callback stored
under it; on a JS `Map` a fresh key always appends, so registration order
is list order. -/
def addHook (hooks : List (Nat × HookCallback)) (nextId : Nat)
    (cb : HookCallback) : List (Nat × HookCallback) × Nat :=
  (mset hooks nextId cb, nextId)

/-! ### Well-formedness predicates

Boolean predicates over states, true of every state reachable through the
public operations; claims with hypotheses assume them and the witnesses
check them on concrete states. -/

/-- Every node map entry is keyed by the stored node's self id (true of
reachable states: `announce` keys nodes by `ids.self`). -/
def nodeKeysOk (m : List (Nat × Node)) : Bool :=
  m.all (fun p => p.2.selfId == p.1)

/-- The reverse-adjacency index is symmetric: every bucket entry
`a ↦ b ↦ c` has a converse entry under `b` for `a` (true of reachable
states: `addConnection` populates both directions). -/
def symmIndex (s : CMState) : Bool :=
  s.connectionPointersMap.all
    (fun p => p.2.all (fun q => mhas (bucketOf s q.1) p.1))

/-- Every connection touching node `a` is listed in `a`'s
reverse-adjacency bucket (true of reachable states: `addConnection`
records the new id under both endpoints and no operation deletes bucket
entries). -/
def bucketComplete (s : CMState) (a : Nat) : Bool :=
  s.connectionMap.all
    (fun p =>
      if p.2.1 == a || p.2.2 == a then
        (bucketOf s a).any (fun q => q.2 == p.1)
      else true)

/-- Every stored connection id is below the GUID counter (true of
reachable states: ids are drawn from the counter). -/
def connIdsFresh (s : CMState) : Bool :=
  s.connectionMap.all (fun p => p.1 < s.nextId)

/-! ### Concrete scenario

A two-node registry (one output node, one input node, distinct parents,
mutually compatible) with one connection, built through the public
operations; used by the witnesses and counterexamples. -/

/-- An output-mode node, parent 10, group 20, compatible with anyone. -/
def nodeA : Node :=
  ⟨1, 10, 20, Mode.output, fun _ => true, "attrsA", ⟨0, 0⟩, none⟩

/-- An input-mode node, parent 11, group 21, compatible with anyone. -/
def nodeB : Node :=
  ⟨2, 11, 21, Mode.input, fun _ => true, "attrsB", ⟨5, 5⟩, some "pAttrs"⟩

/-- A freshly constructed manager (GUID counter started at 100). -/
def s0 : CMState := ⟨[], [], [], [], none, none, 100, []⟩

/-- The manager after announcing both nodes. -/
def s2 : CMState := announce (announce s0 nodeA) nodeB

/-- The manager after additionally connecting node 1 to node 2 (the
connection gets id 100). -/
def s3 : CMState := (addConnection s2 1 2).2

/-! ### Association list lemmas -/

theorem mget_mset_self {α : Type} (m : List (Nat × α)) (k : Nat) (v : α) :
    mget (mset m k v) k = some v := by
  induction m with
  | nil => simp [mget, mset]
  | cons p rest ih =>
    by_cases h : p.1 = k
    · simp [mset, h, mget]
    · simp [mset, h, mget, ih]

theorem mget_mset_ne {α : Type} (m : List (Nat × α)) (k k' : Nat) (v : α)
    (h : k ≠ k') : mget (mset m k v) k' = mget m k' := by
  induction m with
  | nil => simp [mget, mset, h]
  | cons p rest ih =>
    by_cases hp : p.1 = k
    · simp [mset, hp, mget, h]
    · simp [mset, hp, mget, ih]

theorem mget_mdel_self {α : Type} (m : List (Nat × α)) (k : Nat) :
    mget (mdel m k) k = none := by
  induction m with
  | nil => simp [mget, mdel]
  | cons p rest ih =>
    obtain ⟨a, b⟩ := p
    by_cases h : a = k
    · simpa [mdel, h] using ih
    · simpa [mdel, h, mget] using ih

theorem mget_mdel_ne {α : Type} (m : List (Nat × α)) (k k' : Nat)
    (h : k ≠ k') : mget (mdel m k) k' = mget m k' := by
  induction m with
  | nil => simp [mget, mdel]
  | cons p rest ih =>
    obtain ⟨a, b⟩ := p
    by_cases hp : a = k
    · subst hp
      simp [mdel, mget, h, ih]
    · by_cases hpk : a = k'
      · simp [mdel, mget, hp, hpk, Ne.symm h]
      · simp [mdel, mget, hp, hpk, ih]

theorem mget_mem {α : Type} {m : List (Nat × α)} {k : Nat} {v : α}
    (h : mget m k = some v) : (k, v) ∈ m := by
  induction m with
  | nil => simp [mget] at h
  | cons p rest ih =>
    obtain ⟨a, b⟩ := p
    by_cases hp : a = k
    · simp [mget, hp] at h
      subst hp
      subst h
      exact List.mem_cons_self _ _
    · simp [mget, hp] at h
      exact List.mem_cons_of_mem _ (ih h)

theorem mhas_eq_true {α : Type} {m : List (Nat × α)} {k : Nat} :
    mhas m k = true ↔ ∃ v, mget m k = some v := by
  unfold mhas
  cases h : mget m k <;> simp [h]

/-! ### Structural lemmas about `removeConnection` and the cascade -/

theorem removeConnection_nodeMap (s : CMState) (id : Nat) :
    ((removeConnection s id).2).nodeMap = s.nodeMap := by
  unfold removeConnection
  cases getConnection s id <;> rfl

theorem removeConnection_parentMap (s : CMState) (id : Nat) :
    ((removeConnection s id).2).parentMap = s.parentMap := by
  unfold removeConnection
  cases getConnection s id <;> rfl

theorem removeConnection_pointers (s : CMState) (id : Nat) :
    ((removeConnection s id).2).connectionPointersMap =
      s.connectionPointersMap := by
  unfold removeConnection
  cases getConnection s id <;> rfl

theorem removeConnection_mget_self (s : CMState) (id : Nat) :
    mget ((removeConnection s id).2).connectionMap id = none := by
  unfold removeConnection getConnection
  cases h : mget s.connectionMap id <;> simp [h, mget_mdel_self]

theorem removeConnection_mget_none (s : CMState) (id c : Nat)
    (h : mget s.connectionMap c = none) :
    mget ((removeConnection s id).2).connectionMap c = none := by
  unfold removeConnection getConnection
  cases hg : mget s.connectionMap id
  · simpa [hg] using h
  · by_cases hc : id = c
    · subst hc
      simp [hg, mget_mdel_self]
    · simp [hg, mget_mdel_ne _ _ _ hc, h]

theorem removeConnections_nodeMap (L : List (Nat × Nat)) (s : CMState) :
    (removeConnections s L).nodeMap = s.nodeMap := by
  induction L generalizing s with
  | nil => rfl
  | cons p rest ih =>
    unfold removeConnections at ih ⊢
    rw [List.foldl_cons, ih, removeConnection_nodeMap]

theorem removeConnections_parentMap (L : List (Nat × Nat)) (s : CMState) :
    (removeConnections s L).parentMap = s.parentMap := by
  induction L generalizing s with
  | nil => rfl
  | cons p rest ih =>
    unfold removeConnections at ih ⊢
    rw [List.foldl_cons, ih, removeConnection_parentMap]

theorem removeConnections_pointers (L : List (Nat × Nat)) (s : CMState) :
    (removeConnections s L).connectionPointersMap =
      s.connectionPointersMap := by
  induction L generalizing s with
  | nil => rfl
  | cons p rest ih =>
    unfold removeConnections at ih ⊢
    rw [List.foldl_cons, ih, removeConnection_pointers]

theorem removeConnections_mget_none (L : List (Nat × Nat)) (s : CMState)
    (c : Nat) (h : mget s.connectionMap c = none) :
    mget (removeConnections s L).connectionMap c = none := by
  induction L generalizing s with
  | nil => exact h
  | cons p rest ih =>
    unfold removeConnections at ih ⊢
    rw [List.foldl_cons]
    exact ih _ (removeConnection_mget_none _ _ _ h)

theorem removeConnections_mget_mem (L : List (Nat × Nat)) (s : CMState)
    (c : Nat) (h : ∃ q ∈ L, q.2 = c) :
    mget (removeConnections s L).connectionMap c = none := by
  induction L generalizing s with
  | nil => simp at h
  | cons p rest ih =>
    unfold removeConnections at ih ⊢
    rw [List.foldl_cons]
    rcases h with ⟨q, hq, hqc⟩
    rcases List.mem_cons.mp hq with hq | hq
    · subst hq
      subst hqc
      exact removeConnections_mget_none rest _ _
        (removeConnection_mget_self s q.2)
    · exact ih _ ⟨q, hq, hqc⟩

/-! ### Lemmas about `testCompatibility` and `addConnection` -/

/-- An existing reverse-adjacency entry under the origin forces
`testCompatibility` to return false (the existing-connection check, or an
earlier check, fails). -/
theorem testCompatibility_false_of_bucket (s : CMState) (a b : Nat)
    (h : mhas (bucketOf s a) b = true) :
    testCompatibility s a b = false := by
  unfold testCompatibility
  by_cases hab : a = b
  · simp [hab]
  · simp only [hab, if_false]
    cases getNode s a <;> cases getNode s b <;> simp [h]

/-- A failing `addConnection` returns `none` and the unchanged state. -/
theorem addConnection_none_of_false (s : CMState) (a b : Nat)
    (h : testCompatibility s a b = false) :
    addConnection s a b = (none, s) := by
  simp [addConnection, h]

/-- `removeConnection` leaves every reverse-adjacency bucket intact. -/
theorem removeConnection_bucketOf (s : CMState) (id a : Nat) :
    bucketOf (removeConnection s id).2 a = bucketOf s a := by
  unfold bucketOf
  rw [removeConnection_pointers]

/-- `addConnection` never touches the event trace. -/
theorem addConnection_emitted (s : CMState) (a b : Nat) :
    ((addConnection s a b).2).emitted = s.emitted := by
  unfold addConnection
  split <;> rfl

/-- After `removeNode(id)` the node id is gone from the node map,
whether or not the call succeeded. -/
theorem removeNode_getNode_self (s : CMState) (id : Nat) :
    getNode (removeNode s id).2 id = none := by
  unfold removeNode
  cases h : getNode s id with
  | none => exact h
  | some ref =>
    cases hp : mget s.parentMap ref.parentId <;>
      simp [getNode, removeConnections_nodeMap, hp, mget_mdel_self]

/-- After `removeParent(id)` the parent id is gone from the parent map,
whether or not the call succeeded. -/
theorem removeParent_getParent_self (s : CMState) (id : Nat) :
    getParent (removeParent s id).2 id = none := by
  unfold removeParent
  cases h : getParent s id with
  | none => exact h
  | some ref => simp [getParent, mget_mdel_self]

/-- Symmetry transport: under `symmIndex`, an adjacency entry under one
endpoint implies one under the other. -/
theorem symmIndex_flip (s : CMState) (hsym : symmIndex s = true)
    {a b : Nat} (h : mhas (bucketOf s a) b = true) :
    mhas (bucketOf s b) a = true := by
  rcases mhas_eq_true.mp h with ⟨c, hc⟩
  unfold bucketOf at hc
  cases hB : mget s.connectionPointersMap a with
  | none => rw [hB] at hc; simp [mget] at hc
  | some B =>
    rw [hB] at hc
    simp only [Option.getD_some] at hc
    have hmemP : (a, B) ∈ s.connectionPointersMap := mget_mem hB
    have hmemB : (b, c) ∈ B := mget_mem hc
    have := List.all_eq_true.mp hsym _ hmemP
    have := List.all_eq_true.mp this _ hmemB
    simpa using this

/-- Under `connIdsFresh` the GUID counter is not a live connection id. -/
theorem connIdsFresh_mget (s : CMState) (h : connIdsFresh s = true) :
    mget s.connectionMap s.nextId = none := by
  cases hg : mget s.connectionMap s.nextId with
  | none => rfl
  | some v =>
    have hmem := mget_mem hg
    have := List.all_eq_true.mp h _ hmem
    simp at this

/-! ### Claim theorems -/

/-- C1: the round-trip law fails on the code.  For the registry built by
announcing two compatible nodes (one input, one output, distinct parents)
and adding one connection, `deserialize` applied to the reparsed output of
`serialize` returns the freshly instantiated empty maps — the
reconstruction of the node, parent, connection and reverse-adjacency maps
is commented out in `deseriallization.ts` — while the source registry
holds both nodes and the connection.  The deserialized maps are therefore
not structurally equivalent to the originals. -/
theorem deserialize_serialize_not_roundtrip :
    (deserialize
        (some (reparse (serialize s3.connectionMap s3.nodeMap s3.parentMap)))
        (fun _ _ => nodeA)).map DeserializedMaps.nodeMap = some [] ∧
    (deserialize
        (some (reparse (serialize s3.connectionMap s3.nodeMap s3.parentMap)))
        (fun _ _ => nodeA)).map DeserializedMaps.connectionMap = some [] ∧
    (mget s3.nodeMap 1).isSome = true ∧
    (mget s3.nodeMap 2).isSome = true ∧
    (mget s3.connectionMap 100).isSome = true := by
  exact ⟨rfl, rfl, by decide, by decide, by decide⟩

/-- C2: the reverse-adjacency index and the connection map fall out of
sync.  On the two-node registry with connection 100 between nodes 1 and 2,
`removeConnection 100` returns true and deletes the connection from the
connection map, yet both index buckets still map the opposite endpoint to
id 100 — refuting the claimed equivalence between the index and the map
after a public operation. -/
theorem removeConnection_index_out_of_sync :
    (removeConnection s3 100).1 = true ∧
    mget ((removeConnection s3 100).2).connectionMap 100 = none ∧
    mget (bucketOf (removeConnection s3 100).2 1) 2 = some 100 ∧
    mget (bucketOf (removeConnection s3 100).2 2) 1 = some 100 := by
  decide

/-- C8: `execHooks` iterates the registered callbacks with a plain
`forEach`, so a callback that throws aborts the dispatch: with three
callbacks registered in order 1, 2, 3 where callback 2 throws, only
callbacks 1 and 2 are invoked and the exception propagates — callback 3
never runs, contradicting the claim that a throwing callback does not
prevent the remaining callbacks of the same dispatch from running. -/
theorem execHooks_throw_aborts_dispatch :
    execHooks
        [(1, Except.ok ()), (2, Except.error "boom"), (3, Except.ok ())] =
      ([1, 2], some "boom") := by
  rfl

/-- C9: `removeNode`, `removeParent` and `removeConnection` on an id that
is not registered (as node, parent, connection respectively) return
false/none and leave the state — hence every map — unchanged; they are
total functions, and repeating any removal returns false/none the second
time. -/
theorem unknown_id_removals_safe (s : CMState) (id : Nat) :
    (getNode s id = none → removeNode s id = (false, s)) ∧
    (getParent s id = none → removeParent s id = (none, s)) ∧
    (getConnection s id = none → removeConnection s id = (false, s)) ∧
    (removeNode (removeNode s id).2 id).1 = false ∧
    (removeParent (removeParent s id).2 id).1 = none ∧
    (removeConnection (removeConnection s id).2 id).1 = false := by
  have hn : ∀ t : CMState, getNode t id = none → removeNode t id = (false, t) := by
    intro t h
    simp [removeNode, h]
  have hp : ∀ t : CMState, getParent t id = none → removeParent t id = (none, t) := by
    intro t h
    simp [removeParent, h]
  have hc : ∀ t : CMState, getConnection t id = none →
      removeConnection t id = (false, t) := by
    intro t h
    simp [removeConnection, h]
  refine ⟨hn s, hp s, hc s, ?_, ?_, ?_⟩
  · rw [hn _ (removeNode_getNode_self s id)]
  · rw [hp _ (removeParent_getParent_self s id)]
  · rw [hc _ (removeConnection_mget_self s id)]

/-- Witness for C9 on a concrete manager: removing node 5, parent 5 and
connection 5 from the freshly constructed (empty) manager returns
false/none with the state unchanged. -/
theorem unknown_id_removals_safe_witness :
    removeNode s0 5 = (false, s0) ∧
    removeParent s0 5 = (none, s0) ∧
    removeConnection s0 5 = (false, s0) := by
  have h := unknown_id_removals_safe s0 5
  exact ⟨h.1 rfl, h.2.1 rfl, h.2.2.1 rfl⟩

/-- C10: once a connection between nodes `a` and `b` has been removed by a
successful `removeConnection`, the reverse-adjacency entries recorded at
creation persist, so `testCompatibility` rejects the pair in both orders
and `addConnection` fails in both orders without side effects — the pair
can never be reconnected. -/
theorem removed_pair_never_reconnectable (s : CMState) (cid a b : Nat)
    (_hrem : (removeConnection s cid).1 = true)
    (_hna : (getNode (removeConnection s cid).2 a).isSome = true)
    (_hnb : (getNode (removeConnection s cid).2 b).isSome = true)
    (ha : mhas (bucketOf s a) b = true)
    (hb : mhas (bucketOf s b) a = true) :
    testCompatibility (removeConnection s cid).2 a b = false ∧
    testCompatibility (removeConnection s cid).2 b a = false ∧
    addConnection (removeConnection s cid).2 a b =
      (none, (removeConnection s cid).2) ∧
    addConnection (removeConnection s cid).2 b a =
      (none, (removeConnection s cid).2) := by
  have ha2 : mhas (bucketOf (removeConnection s cid).2 a) b = true := by
    rw [removeConnection_bucketOf]
    exact ha
  have hb2 : mhas (bucketOf (removeConnection s cid).2 b) a = true := by
    rw [removeConnection_bucketOf]
    exact hb
  have t1 := testCompatibility_false_of_bucket _ _ _ ha2
  have t2 := testCompatibility_false_of_bucket _ _ _ hb2
  exact ⟨t1, t2, addConnection_none_of_false _ _ _ t1,
    addConnection_none_of_false _ _ _ t2⟩

/-- Witness for C10 on the concrete registry: after removing connection
100 between nodes 1 and 2 (both still registered), neither direction is
compatible and neither direction can be reconnected. -/
theorem removed_pair_never_reconnectable_witness :
    testCompatibility (removeConnection s3 100).2 1 2 = false ∧
    testCompatibility (removeConnection s3 100).2 2 1 = false ∧
    addConnection (removeConnection s3 100).2 1 2 =
      (none, (removeConnection s3 100).2) ∧
    addConnection (removeConnection s3 100).2 2 1 =
      (none, (removeConnection s3 100).2) :=
  removed_pair_never_reconnectable s3 100 1 2 (by decide) (by decide)
    (by decide) (by decide) (by decide)

/-- C5: for registered nodes `a`, `b` with distinct parents, distinct
modes, no existing connection and a compatible origin, the first
`addConnection(a, b)` returns the fresh id drawn from the GUID counter
(not previously a connection id), records the ordered pair in the
connection map and records the id symmetrically in both endpoints'
reverse-adjacency buckets; afterwards `addConnection` fails in either
argument order without side effects; and in general any failing
`addConnection` returns `none` with the state unchanged. -/
theorem addConnection_succeeds_once (s : CMState) (a b : Nat)
    (nA nB : Node)
    (hA : getNode s a = some nA) (hB : getNode s b = some nB)
    (hpar : nA.parentId ≠ nB.parentId) (hmode : nA.mode ≠ nB.mode)
    (hnoconn : mhas (bucketOf s a) b = false)
    (hcompat : nA.isCompatible nB.selfId = true)
    (hfresh : connIdsFresh s = true) :
    (addConnection s a b).1 = some s.nextId ∧
    mget s.connectionMap s.nextId = none ∧
    mget ((addConnection s a b).2).connectionMap s.nextId = some (a, b) ∧
    mget (bucketOf (addConnection s a b).2 a) b = some s.nextId ∧
    mget (bucketOf (addConnection s a b).2 b) a = some s.nextId ∧
    addConnection (addConnection s a b).2 a b =
      (none, (addConnection s a b).2) ∧
    addConnection (addConnection s a b).2 b a =
      (none, (addConnection s a b).2) ∧
    (∀ t o d, testCompatibility t o d = false →
      addConnection t o d = (none, t)) := by
  have hab : a ≠ b := by
    intro he
    rw [he, hB] at hA
    exact hpar (by rw [Option.some.inj hA])
  have htc : testCompatibility s a b = true := by
    unfold testCompatibility
    rw [if_neg hab, hA, hB]
    simp [hpar, hmode, hnoconn, hcompat]
  have hfst : (addConnection s a b).1 = some s.nextId := by
    simp [addConnection, htc]
  have hconn : ((addConnection s a b).2).connectionMap =
      mset s.connectionMap s.nextId (a, b) := by
    simp [addConnection, htc]
  have hptr : ((addConnection s a b).2).connectionPointersMap =
      mset (mset s.connectionPointersMap a (mset (bucketOf s a) b s.nextId))
        b (mset (bucketOf s b) a s.nextId) := by
    simp only [addConnection, htc, if_neg (by simp : ¬(true = false))]
    unfold bucketOf
    rw [mget_mset_ne _ _ _ _ hab]
  have hbkt_a : bucketOf (addConnection s a b).2 a =
      mset (bucketOf s a) b s.nextId := by
    unfold bucketOf
    rw [hptr, mget_mset_ne _ _ _ _ (Ne.symm hab), mget_mset_self]
    rfl
  have hbkt_b : bucketOf (addConnection s a b).2 b =
      mset (bucketOf s b) a s.nextId := by
    unfold bucketOf
    rw [hptr, mget_mset_self]
    rfl
  have hget_a : mget (bucketOf (addConnection s a b).2 a) b =
      some s.nextId := by
    rw [hbkt_a, mget_mset_self]
  have hget_b : mget (bucketOf (addConnection s a b).2 b) a =
      some s.nextId := by
    rw [hbkt_b, mget_mset_self]
  have hdup : testCompatibility (addConnection s a b).2 a b = false :=
    testCompatibility_false_of_bucket _ _ _ (by rw [mhas, hget_a]; rfl)
  have hdup2 : testCompatibility (addConnection s a b).2 b a = false :=
    testCompatibility_false_of_bucket _ _ _ (by rw [mhas, hget_b]; rfl)
  refine ⟨hfst, connIdsFresh_mget s hfresh, ?_, hget_a, hget_b,
    addConnection_none_of_false _ _ _ hdup,
    addConnection_none_of_false _ _ _ hdup2,
    fun t o d h => addConnection_none_of_false t o d h⟩
  rw [hconn, mget_mset_self]

/-- Witness for C5 on the concrete registry of two announced compatible
nodes: connecting 1 to 2 yields id 100, records the pair and both index
entries, and a second attempt fails in either order. -/
theorem addConnection_succeeds_once_witness :
    (addConnection s2 1 2).1 = some 100 ∧
    mget s2.connectionMap 100 = none ∧
    mget ((addConnection s2 1 2).2).connectionMap 100 = some (1, 2) ∧
    mget (bucketOf (addConnection s2 1 2).2 1) 2 = some 100 ∧
    mget (bucketOf (addConnection s2 1 2).2 2) 1 = some 100 ∧
    addConnection (addConnection s2 1 2).2 1 2 =
      (none, (addConnection s2 1 2).2) ∧
    addConnection (addConnection s2 1 2).2 2 1 =
      (none, (addConnection s2 1 2).2) := by
  have h := addConnection_succeeds_once s2 1 2 nodeA nodeB rfl rfl
    (by decide) (by decide) (by decide) (by decide) (by decide)
  exact ⟨h.1, h.2.1, h.2.2.1, h.2.2.2.1, h.2.2.2.2.1,
    h.2.2.2.2.2.1, h.2.2.2.2.2.2.1⟩

/-- C4: on any state whose reverse-adjacency index is symmetric,
`testCompatibility` — a read-only predicate of the state — returns true
exactly when the origin differs from the destination, both resolve to
registered nodes, the nodes have distinct parent ids and distinct modes,
no connection between the pair is recorded in the index (under either
endpoint), and the origin's `isCompatible` accepts the destination; in
particular two registered nodes sharing a parent id are never compatible,
regardless of mode. -/
theorem testCompatibility_iff_invariants (s : CMState)
    (hsym : symmIndex s = true) :
    (∀ o d, testCompatibility s o d = true ↔
      (o ≠ d ∧ ∃ oN dN, getNode s o = some oN ∧ getNode s d = some dN ∧
        oN.parentId ≠ dN.parentId ∧ oN.mode ≠ dN.mode ∧
        mhas (bucketOf s o) d = false ∧ mhas (bucketOf s d) o = false ∧
        oN.isCompatible dN.selfId = true)) ∧
    (∀ a b nA nB, getNode s a = some nA → getNode s b = some nB →
      nA.parentId = nB.parentId → testCompatibility s a b = false) := by
  constructor
  · intro o d
    constructor
    · intro h
      unfold testCompatibility at h
      by_cases hod : o = d
      · rw [if_pos hod] at h
        exact absurd h (by simp)
      · rw [if_neg hod] at h
        cases hO : getNode s o with
        | none =>
          rw [hO] at h
          cases hD : getNode s d <;> rw [hD] at h <;> exact absurd h (by simp)
        | some oN =>
          rw [hO] at h
          cases hD : getNode s d with
          | none => rw [hD] at h; exact absurd h (by simp)
          | some dN =>
            rw [hD] at h
            simp only [] at h
            split_ifs at h with h1 h2 h3 h4
            have hnc : mhas (bucketOf s o) d = false := by
              simpa using h3
            have hnc2 : mhas (bucketOf s d) o = false := by
              cases hdo : mhas (bucketOf s d) o with
              | false => rfl
              | true => exact absurd (symmIndex_flip s hsym hdo) (by simp [hnc])
            have hcp : oN.isCompatible dN.selfId = true := by
              cases hv : oN.isCompatible dN.selfId with
              | true => rfl
              | false => exact absurd hv h4
            exact ⟨hod, oN, dN, rfl, rfl, h1, h2, hnc, hnc2, hcp⟩
    · rintro ⟨hod, oN, dN, hO, hD, hpar, hmode, hnc, _, hcp⟩
      unfold testCompatibility
      rw [if_neg hod, hO, hD]
      simp [hpar, hmode, hnc, hcp]
  · intro a b nA nB hA hB hpar
    by_cases hab : a = b
    · unfold testCompatibility
      rw [if_pos hab]
    · unfold testCompatibility
      rw [if_neg hab, hA, hB]
      simp [hpar]

/-- Witness for C4 on the concrete two-node registry (symmetric index):
the compatibility predicate for nodes 1 and 2 is characterized by the six
conditions of the claim. -/
theorem testCompatibility_iff_invariants_witness :
    symmIndex s2 = true ∧
    (testCompatibility s2 1 2 = true ↔
      ((1 : Nat) ≠ 2 ∧ ∃ oN dN, getNode s2 1 = some oN ∧
        getNode s2 2 = some dN ∧
        oN.parentId ≠ dN.parentId ∧ oN.mode ≠ dN.mode ∧
        mhas (bucketOf s2 1) 2 = false ∧ mhas (bucketOf s2 2) 1 = false ∧
        oN.isCompatible dN.selfId = true)) :=
  ⟨by decide, (testCompatibility_iff_invariants s2 (by decide)).1 1 2⟩

/-- Equation for a successful `removeNode`: parent bucket pruned, node
map entry deleted, then the cascade over the node's reverse-adjacency
bucket. -/
theorem removeNode_success_eq (s : CMState) (a : Nat) (ref : Node)
    (hreg : mget s.nodeMap a = some ref) :
    removeNode s a =
      (true,
        removeConnections
          { s with
            nodeMap := mdel s.nodeMap a,
            parentMap :=
              match mget s.parentMap ref.parentId with
              | none => s.parentMap
              | some parent =>
                mset s.parentMap ref.parentId (mdel parent ref.selfId) }
          (bucketOf s a)) := by
  unfold removeNode getNode
  rw [hreg]
  cases hpm : mget s.parentMap ref.parentId <;> simp [hpm, bucketOf]

/-- C3 counterexample: on the two-node registry with one connection,
`removeNode 1` returns true, yet node 1's own reverse-adjacency bucket is
still present in the index afterwards — the source never deletes the
bucket, refuting the claim that it is removed. -/
theorem removeNode_keeps_own_bucket :
    (removeNode s3 1).1 = true ∧
    (mget ((removeNode s3 1).2).connectionPointersMap 1).isSome = true := by
  decide

/-- C3 (amended): for a registered node `a` (on a state whose node map is
keyed by self ids and whose bucket lists every connection touching `a`),
`removeNode a` returns true and afterwards the node is gone from the node
map, its self id is gone from its parent's bucket, and every connection
that had `a` as an endpoint is gone from the connection map; the
reverse-adjacency index — including `a`'s own bucket — is left entirely
in place (the source does not delete the bucket); unregistered ids give
false with the state unchanged. -/
theorem removeNode_cascades (s : CMState) (a : Nat) (ref : Node)
    (hk : nodeKeysOk s.nodeMap = true)
    (hbc : bucketComplete s a = true)
    (hreg : getNode s a = some ref) :
    (removeNode s a).1 = true ∧
    getNode (removeNode s a).2 a = none ∧
    (∀ bkt, mget ((removeNode s a).2).parentMap ref.parentId = some bkt →
      mget bkt a = none) ∧
    (∀ c o d, mget s.connectionMap c = some (o, d) → o = a ∨ d = a →
      mget ((removeNode s a).2).connectionMap c = none) ∧
    ((removeNode s a).2).connectionPointersMap = s.connectionPointersMap ∧
    (∀ i, getNode s i = none → removeNode s i = (false, s)) := by
  unfold getNode at hreg
  have hself : ref.selfId = a := by
    have := List.all_eq_true.mp hk _ (mget_mem hreg)
    simpa using this
  have heq := removeNode_success_eq s a ref hreg
  refine ⟨by rw [heq], removeNode_getNode_self s a, ?_, ?_, ?_,
    fun i h => by simp [removeNode, h]⟩
  · intro bkt hbkt
    rw [heq] at hbkt
    simp only [removeConnections_parentMap] at hbkt
    cases hpm : mget s.parentMap ref.parentId with
    | none =>
      rw [hpm] at hbkt
      simp only [] at hbkt
      rw [hpm] at hbkt
      cases hbkt
    | some parent =>
      rw [hpm] at hbkt
      simp only [] at hbkt
      rw [mget_mset_self] at hbkt
      cases hbkt
      rw [hself]
      exact mget_mdel_self parent a
  · intro c o d hc hod
    have hany := List.all_eq_true.mp hbc _ (mget_mem hc)
    have hcond : (o == a || d == a) = true := by
      rcases hod with h | h <;> simp [h]
    simp only [hcond, if_true] at hany
    rcases List.any_eq_true.mp hany with ⟨q, hq, hqc⟩
    rw [heq]
    exact removeConnections_mget_mem _ _ _
      ⟨q, hq, by simpa using hqc⟩
  · rw [heq]
    exact removeConnections_pointers _ _

/-- Witness for C3 (amended) on the concrete registry: removing node 1
succeeds, the node and its connection are gone, its parent bucket no
longer lists it, and the reverse-adjacency index is untouched. -/
theorem removeNode_cascades_witness :
    (removeNode s3 1).1 = true ∧
    getNode (removeNode s3 1).2 1 = none ∧
    mget ((removeNode s3 1).2).connectionMap 100 = none ∧
    ((removeNode s3 1).2).connectionPointersMap =
      s3.connectionPointersMap := by
  have h := removeNode_cascades s3 1 nodeA (by decide) (by decide) rfl
  exact ⟨h.1, h.2.1, h.2.2.2.1 100 1 2 (by decide) (Or.inl rfl), h.2.2.2.2.1⟩

/-- C6: the `dragEnd` handler always dispatches `endConnection` with the
dragged node's reference and the current target (or none), attempts
`addConnection` from the node to the target exactly when a target is set
(connection maps stay unchanged when no target is set), and then
unconditionally resets the transient drag state: after every drag-end
`getOrigin` and `getTarget` both return none, whether or not a connection
was created. -/
theorem dragEnd_clears_and_attempts (s : CMState) (node : Node) :
    getOrigin (dragEnd s node) = none ∧
    getTarget (dragEnd s node) = none ∧
    (dragEnd s node).emitted = s.emitted ++
      [CMEvent.endConnection node.selfId ((getTarget s).map Node.selfId)] ∧
    (∀ t, getTarget s = some t →
      (dragEnd s node).connectionMap =
        ((addConnection
            { s with emitted := s.emitted ++
                [CMEvent.endConnection node.selfId (some t.selfId)] }
            node.selfId t.selfId).2).connectionMap) ∧
    (getTarget s = none → (dragEnd s node).connectionMap = s.connectionMap) := by
  refine ⟨rfl, rfl, ?_, ?_, ?_⟩
  · unfold dragEnd getTarget
    cases s.targetNode with
    | none => rfl
    | some t => simp [addConnection_emitted]
  · intro t ht
    unfold getTarget at ht
    unfold dragEnd getTarget
    rw [ht]
    simp
  · intro ht
    unfold getTarget at ht
    unfold dragEnd getTarget
    rw [ht]

/-- The concrete drag scenario: node 1 starts a drag, the pointer enters
node 2 (which becomes the target). -/
def sHover : CMState := mouseEnter (dragStart s2 nodeA) nodeB

/-- Witness for C6 on the drag scenario: after node 1's drag-end both
transient endpoints read none and the connection maps are those of the
attempted `addConnection(1, 2)`. -/
theorem dragEnd_clears_and_attempts_witness :
    getOrigin (dragEnd sHover nodeA) = none ∧
    getTarget (dragEnd sHover nodeA) = none ∧
    (dragEnd sHover nodeA).connectionMap =
      ((addConnection
          { sHover with emitted := sHover.emitted ++
              [CMEvent.endConnection nodeA.selfId (some nodeB.selfId)] }
          nodeA.selfId nodeB.selfId).2).connectionMap :=
  ⟨(dragEnd_clears_and_attempts sHover nodeA).1,
   (dragEnd_clears_and_attempts sHover nodeA).2.1,
   (dragEnd_clears_and_attempts sHover nodeA).2.2.2.1 nodeB rfl⟩

/-- C7: `deserialize` applied to an unparseable input returns the `none`
failure sentinel (it is a total function — nothing is thrown), while
inside a parseable document a node record whose id, parent or group
identifier fails validation is skipped by the record loop with the
remaining records still processed (and any parseable document still
yields a result, never a failure of the whole call). -/
theorem deserialize_parse_failure_and_skip :
    (∀ hook, deserialize none hook = none) ∧
    (∀ node rest, validRecord node = false →
      processNodes (node :: rest) = processNodes rest) ∧
    (∀ node i p g rest, node.id = some i → node.parent = some p →
      node.group = some g →
      processNodes (node :: rest) =
        ⟨i, p, g, node.position, node.attributes⟩ :: processNodes rest) ∧
    (∀ so hook, deserialize (some so) hook = some ⟨[], [], [], []⟩) := by
  refine ⟨fun hook => rfl, ?_, ?_, fun so hook => rfl⟩
  · intro node rest h
    simp [processNodes, h]
  · intro node i p g rest h1 h2 h3
    have hv : ¬validRecord node = false := by
      simp [validRecord, guidIsValid, h1, h2, h3]
    simp [processNodes, hv, h1, h2, h3]

/-- Witness for C7: a record with a malformed id followed by a valid
record — the bad record is dropped, the valid one survives. -/
theorem deserialize_parse_failure_and_skip_witness :
    processNodes
        [⟨none, some 1, some 2, ⟨0, 0⟩, "bad"⟩,
         ⟨some 7, some 8, some 9, ⟨1, 1⟩, "good"⟩] =
      [⟨7, 8, 9, ⟨1, 1⟩, "good"⟩] := by
  have h := deserialize_parse_failure_and_skip
  rw [h.2.1 ⟨none, some 1, some 2, ⟨0, 0⟩, "bad"⟩ _ rfl,
    h.2.2.1 ⟨some 7, some 8, some 9, ⟨1, 1⟩, "good"⟩ 7 8 9 [] rfl rfl rfl]
  rfl

end Blueprint
